import Mathlib

/-!
Verification development for the booth_searcher query-resolution pipeline.

Strings are modelled as `List Char` (`Str`).  Python's `unicodedata.normalize
("NFKC", ·)` is an external library call; it is modelled character-wise by the
finite folding table `nfkcTable` covering the singleton compatibility foldings
relevant to the query normalizer (full-width Latin letters and digits to
ASCII, ideographic space to space, half-width katakana middle dot to katakana
middle dot).  Everything else is translated directly from the repository
sources (`utils/query_normalization.py`, `utils/query_normalize.py`,
`models/search_params.py`, `models/search_result.py`, `models/booth_item.py`,
`core/search_service.py`).
-/

namespace Booth

abbrev Str := List Char

/-- Python's Unicode whitespace class, as used by both `str.strip()` and the
compiled regex `\s` in `utils/query_normalization.py`. -/
def isWs (c : Char) : Bool :=
  let n := c.toNat
  decide (n = 0x20 ∨ (0x9 ≤ n ∧ n ≤ 0xD) ∨ (0x1C ≤ n ∧ n ≤ 0x1F) ∨ n = 0x85 ∨
    n = 0xA0 ∨ n = 0x1680 ∨ (0x2000 ≤ n ∧ n ≤ 0x200A) ∨ n = 0x2028 ∨
    n = 0x2029 ∨ n = 0x202F ∨ n = 0x205F ∨ n = 0x3000)

/-- Python `str.strip()`: drop whitespace from both ends. -/
def pyStrip (l : Str) : Str :=
  ((l.dropWhile isWs).reverse.dropWhile isWs).reverse

/-- Collapse each maximal run of `' '` characters to a single space
(the run-merging part of `re.sub(r"\s+", " ", ·)`). -/
def squeezeSpaces : Str → Str
  | [] => []
  | [c] => [c]
  | c :: d :: rest =>
    if c = ' ' ∧ d = ' ' then squeezeSpaces (d :: rest)
    else c :: squeezeSpaces (d :: rest)

/-- `re.sub(r"\s+", " ", text)`: every whitespace character becomes `' '` and
maximal runs are merged to a single space. -/
def wsCollapse (l : Str) : Str :=
  squeezeSpaces (l.map fun c => if isWs c then ' ' else c)

/-- First-match lookup in a character folding table. -/
def tableLookup (t : List (Char × Char)) (c : Char) : Option Char :=
  (t.find? fun p => p.1 == c).map (·.2)

/-- Character-wise model of `unicodedata.normalize("NFKC", ·)` restricted to
the singleton foldings the query normalizer relies on. -/
def nfkcTable : List (Char × Char) :=
  [('　', ' '), ('･', '・'),
   ('０', '0'), ('１', '1'), ('２', '2'), ('３', '3'), ('４', '4'),
   ('５', '5'), ('６', '6'), ('７', '7'), ('８', '8'), ('９', '9'),
   ('Ａ', 'A'), ('Ｂ', 'B'), ('Ｃ', 'C'), ('Ｄ', 'D'), ('Ｅ', 'E'),
   ('Ｆ', 'F'), ('Ｇ', 'G'), ('Ｈ', 'H'), ('Ｉ', 'I'), ('Ｊ', 'J'),
   ('Ｋ', 'K'), ('Ｌ', 'L'), ('Ｍ', 'M'), ('Ｎ', 'N'), ('Ｏ', 'O'),
   ('Ｐ', 'P'), ('Ｑ', 'Q'), ('Ｒ', 'R'), ('Ｓ', 'S'), ('Ｔ', 'T'),
   ('Ｕ', 'U'), ('Ｖ', 'V'), ('Ｗ', 'W'), ('Ｘ', 'X'), ('Ｙ', 'Y'),
   ('Ｚ', 'Z'),
   ('ａ', 'a'), ('ｂ', 'b'), ('ｃ', 'c'), ('ｄ', 'd'), ('ｅ', 'e'),
   ('ｆ', 'f'), ('ｇ', 'g'), ('ｈ', 'h'), ('ｉ', 'i'), ('ｊ', 'j'),
   ('ｋ', 'k'), ('ｌ', 'l'), ('ｍ', 'm'), ('ｎ', 'n'), ('ｏ', 'o'),
   ('ｐ', 'p'), ('ｑ', 'q'), ('ｒ', 'r'), ('ｓ', 's'), ('ｔ', 't'),
   ('ｕ', 'u'), ('ｖ', 'v'), ('ｗ', 'w'), ('ｘ', 'x'), ('ｙ', 'y'),
   ('ｚ', 'z')]

def nfkcFold (c : Char) : Char := (tableLookup nfkcTable c).getD c

/-- `_PUNCTUATION_MAP` from `utils/query_normalization.py`. -/
def punctTable : List (Char × Char) :=
  [('・', ' '), ('･', ' '), ('·', ' '), ('•', ' '),
   ('、', ','), ('，', ','), ('｡', '.'), ('。', '.'),
   ('（', '('), ('）', ')'), ('［', '['), ('］', ']'),
   ('｛', '\x7b'), ('｝', '\x7d'),
   ('「', '"'), ('」', '"'), ('『', '"'), ('』', '"')]

def punctFold (c : Char) : Char := (tableLookup punctTable c).getD c

def nfkcMap (l : Str) : Str := l.map nfkcFold

def punctMap (l : Str) : Str := l.map punctFold

/-- `normalize_query` from `utils/query_normalization.py`:
NFKC, punctuation folding, whitespace collapsing, trimming. -/
def normalizeQuery (text : Str) : Str :=
  if nfkcMap text = [] then []
  else pyStrip (wsCollapse (punctMap (nfkcMap text)))

/-- `normalize_query` including the `text is None` guard. -/
def normalizeQueryOpt : Option Str → Str
  | none => []
  | some t => normalizeQuery t

/-- The delimiter class of `_MULTI_SEPARATOR_RE = [,;/|\n]+`. -/
def isDelim (c : Char) : Bool :=
  decide (c = ',' ∨ c = ';' ∨ c = '/' ∨ c = '|' ∨ c = '\n')

/-- Split on single delimiter characters.  `re.split` with the `+` quantifier
merges adjacent delimiters; the empty parts produced here instead are removed
by the strip-and-drop filter of the callers, so the observable results agree. -/
def splitOnDelims : Str → List Str
  | [] => [[]]
  | c :: rest =>
    match splitOnDelims rest, isDelim c with
    | r, true => [] :: r
    | [], false => [[c]]
    | p :: ps, false => (c :: p) :: ps

/-- The cleaning comprehension shared by both splitters:
`[part.strip() for part in parts if part and part.strip()]`. -/
def cleanParts (parts : List Str) : List Str :=
  parts.filterMap fun part =>
    if part ≠ [] ∧ pyStrip part ≠ [] then some (pyStrip part) else none

/-- `split_multi_query` from `utils/query_normalization.py`. -/
def splitMultiQuery (text : Str) : List Str :=
  cleanParts (splitOnDelims text)

/-- The first-occurrence deduplication loop of `parse_multi_query`
(`utils/query_normalize.py`), with its `seen` set. -/
def dedupParts : List Str → List Str → List Str
  | [], _ => []
  | p :: rest, seen =>
    if p ≠ [] ∧ p ∉ seen then p :: dedupParts rest (p :: seen)
    else dedupParts rest seen

/-- `parse_multi_query` from `utils/query_normalize.py`: the same cleaning
pipeline followed by exact-duplicate removal keeping first occurrences. -/
def parseMultiQuery (text : Str) : List Str :=
  dedupParts (cleanParts (splitOnDelims text)) []

/-- `remove_spaces` from `utils/query_normalization.py`:
`re.sub(r"\s+", "", text)`. -/
def removeSpaces (text : Str) : Str :=
  text.filter fun c => !(isWs c)

/-! ## Data model (`models/`) -/

/-- `SortOrder` from `models/search_params.py`. -/
inductive SortOrder where
  | relevance
  | newest
  | popular
  | priceAsc
  | priceDesc
deriving DecidableEq, Repr

/-- The `value` of each enum member (`"relevance"`, `"new"`, ...). -/
def SortOrder.value : SortOrder → Str
  | .relevance => "relevance".toList
  | .newest => "new".toList
  | .popular => "wish_count".toList
  | .priceAsc => "price_asc".toList
  | .priceDesc => "price_desc".toList

/-- `PriceRange` from `models/search_params.py`. -/
structure PriceRange where
  min_price : Option Int := none
  max_price : Option Int := none
  free_only : Bool := false
deriving DecidableEq, Repr

/-- `PriceType` from `models/booth_item.py`. -/
inductive PriceType where
  | free
  | paid
  | unknown
deriving DecidableEq, Repr

/-- `BoothItem` from `models/booth_item.py`, restricted to the fields the
verified operations read, plus the `verified_in_description` augmentation
written by `SearchService._verify_top_items`. -/
structure BoothItem where
  id : Str := []
  name : Str := []
  price_value : Option Int := none
  price_type : PriceType := .unknown
  verified_in_description : Bool := false
deriving DecidableEq, Repr

/-- `BoothItem.is_free`. -/
def BoothItem.is_free (item : BoothItem) : Bool :=
  item.price_type = PriceType.free ∨ item.price_value = some 0

/-- `BoothItem.matches_price_range`. -/
def BoothItem.matches_price_range
    (item : BoothItem) (minPrice maxPrice : Option Int) : Bool :=
  match item.price_value with
  | none => true
  | some v =>
    if minPrice.any fun m => decide (v < m) then false
    else if maxPrice.any fun m => decide (m < v) then false
    else true

/-- `SearchResult` from `models/search_result.py`. -/
structure SearchResult where
  items : List BoothItem
  total_count : Int
  current_page : Int
  total_pages : Int
  has_next : Bool
  query : Str
  cached : Bool := false
  cache_age_seconds : Option Int := none
  raw_query : Str := []
  resolved_query : Str := []
  attempt_label : Str := "A".toList
  attempt_description : Str := []
  correction_applied : Bool := false
  used_strategy : Str := "original".toList
  attempts_count : Int := 1
deriving DecidableEq, Repr

/-- `SearchResult.is_empty`. -/
def SearchResult.is_empty (r : SearchResult) : Bool := r.items = []

/-- `SearchResult.empty`. -/
def SearchResult.empty (query : Str) : SearchResult :=
  { items := []
    total_count := 0
    current_page := 1
    total_pages := 0
    has_next := false
    query := query
    raw_query := []
    resolved_query := query
    attempt_label := "A".toList
    attempt_description := []
    correction_applied := false
    used_strategy := "original".toList
    attempts_count := 1 }

/-- `SearchResult.merge`. -/
def SearchResult.merge (r other : SearchResult) : SearchResult :=
  { items := r.items ++ other.items
    total_count := other.total_count
    current_page := other.current_page
    total_pages := other.total_pages
    has_next := other.has_next
    query := r.query
    cached := false
    raw_query := r.raw_query
    resolved_query := r.resolved_query
    attempt_label := r.attempt_label
    attempt_description := r.attempt_description
    correction_applied := r.correction_applied
    used_strategy := r.used_strategy
    attempts_count := r.attempts_count }

/-- `SearchResult.filter_by_price`.  Note that `total_count` is set to the
number of retained items. -/
def SearchResult.filter_by_price
    (r : SearchResult) (minPrice maxPrice : Option Int) : SearchResult :=
  let filtered := r.items.filter fun item =>
    item.matches_price_range minPrice maxPrice
  { r with items := filtered, total_count := (filtered.length : Int) }

/-- `SearchResult.filter_free_only`.  Note that `total_count` is set to the
number of retained items. -/
def SearchResult.filter_free_only (r : SearchResult) : SearchResult :=
  let filtered := r.items.filter fun item => item.is_free
  { r with items := filtered, total_count := (filtered.length : Int) }

/-- The sort key of `SearchResult.sort_by_price`: unknown prices last. -/
def priceKey (item : BoothItem) : Int × Int :=
  match item.price_value with
  | none => (1, 0)
  | some v => (0, v)

/-- `SearchResult.sort_by_price`. -/
def SearchResult.sort_by_price (r : SearchResult) (ascending : Bool) : SearchResult :=
  let sortedItems :=
    if ascending then
      r.items.mergeSort fun a b => decide (priceKey a ≤ priceKey b)
    else
      r.items.mergeSort fun a b => decide (priceKey b ≤ priceKey a)
  { r with items := sortedItems }

/-- `SearchParams` from `models/search_params.py` (field declarations). -/
structure SearchParams where
  avatar_name : Str
  category : Str := "전체".toList
  sort : SortOrder := .relevance
  price_range : Option PriceRange := none
  page : Int := 1
  per_page : Int := 24
  raw_query : Str := []
  normalize_enabled : Option Bool := none
  alias_enabled : Bool := true
  fallback_enabled : Bool := true
  fallback_min_results : Int := 5
  resolved_query : Option Str := none
  used_strategy : Option Str := none
  normalization_enabled : Bool := true
  allow_multi : Bool := false
  verify_mode : Bool := false
  verify_top_n : Int := 10
deriving DecidableEq, Repr

/-- `SearchParams.__post_init__`: trims the avatar name, defaults
`raw_query`, reconciles the two normalization flags and clamps the numeric
fields. -/
def postInit (p : SearchParams) : SearchParams :=
  let avatar := pyStrip p.avatar_name
  let raw := if p.raw_query = [] then avatar else p.raw_query
  let ne := p.normalize_enabled.getD p.normalization_enabled
  { p with
    avatar_name := avatar
    raw_query := raw
    normalize_enabled := some ne
    normalization_enabled := ne
    page := if p.page < 1 then 1 else p.page
    per_page := if p.per_page < 1 then 24 else p.per_page
    fallback_min_results :=
      if p.fallback_min_results < 1 then 1 else p.fallback_min_results }

/-- `SearchParams.with_avatar_name` (constructs a fresh instance, so
`__post_init__` runs again). -/
def withAvatarName (p : SearchParams) (name : Str) : SearchParams :=
  postInit { p with avatar_name := name }

/-- Python `str(·)` of an `Optional[int]`: `"None"` or the decimal digits. -/
def intOptStr : Option Int → Str
  | none => "None".toList
  | some v => (toString v).toList

/-- Python `str(·)` of a `bool`: `"True"` / `"False"`. -/
def boolStr : Bool → Str
  | true => "True".toList
  | false => "False".toList

/-- The pre-hash key string built by `SearchParams.cache_key`:
`avatar_name:category:sort.value:price_str:page`, with
`price_str = f"{min_price}:{max_price}:{free_only}"` when a price range is
set.  `cache_key()` itself is the first 16 hex digits of the SHA-256 of this
string; SHA-256 is a fixed pure function, so the key is determined by this
string alone. -/
def cacheKeyString (p : SearchParams) : Str :=
  let priceStr :=
    match p.price_range with
    | none => []
    | some pr =>
      intOptStr pr.min_price ++ [':'] ++ intOptStr pr.max_price ++ [':'] ++
        boolStr pr.free_only
  p.avatar_name ++ [':'] ++ p.category ++ [':'] ++ p.sort.value ++ [':'] ++
    priceStr ++ [':'] ++ (toString p.page).toList

/-! ## Search orchestration (`core/search_service.py`)

`SearchService.search` performs network fetching, parsing, caching and
scoring; for the fallback-loop properties it is an abstract provider, exactly
as in the repository's own tests which override `search` on a stub subclass.
It is modelled as a function argument `provider : SearchParams →
SearchResult`.  The alias map (`self._alias_map`) is a function argument as
well, and the caller-supplied `cancel_check` closure is modelled as a
function of the number of times it has already been invoked. -/

/-- `SearchAttempt` from `core/search_service.py`. -/
structure SearchAttempt where
  label : Str
  query : Str
  description : Str := []
deriving DecidableEq, Repr

/-- Python `list[:n]`: for non-negative `n` take `n` elements, for negative
`n` drop the last `|n|` elements. -/
def pySliceTo (n : Int) (l : List α) : List α :=
  if 0 ≤ n then l.take n.toNat else l.take (l.length - (-n).toNat)

/-- Join description fragments with `", "`. -/
def joinDesc (parts : List Str) : Str :=
  List.intercalate ", ".toList parts

/-- `SearchService._build_attempt_b`: space removal, else quote wrapping. -/
def buildAttemptB (query : Str) : Option SearchAttempt :=
  if query = [] then none
  else
    let bySpace : Option SearchAttempt :=
      if query.contains ' ' then
        let noSpace := removeSpaces query
        if noSpace ≠ [] ∧ noSpace ≠ query then
          some { label := "B".toList, query := noSpace,
                 description := "공백 제거".toList }
        else none
      else none
    match bySpace with
    | some a => some a
    | none =>
      let quoted :=
        if ¬(query.head? = some '"' ∧ query.getLast? = some '"') then
          '"' :: query ++ ['"']
        else query
      if quoted ≠ query then
        some { label := "B".toList, query := quoted,
               description := "따옴표 검색".toList }
      else none

/-- `SearchService._build_attempt_c`: alias mapping. -/
def buildAttemptC (aliasMap : Str → Option Str) (query : Str)
    (normalizeEnabled : Bool) : Option SearchAttempt :=
  if query = [] ∨ normalizeEnabled = false then none
  else
    match aliasMap (normalizeQuery query) with
    | none => none
    | some canonical =>
      if canonical ≠ [] ∧ canonical ≠ query then
        some { label := "C".toList, query := canonical,
               description := "별칭 매핑".toList }
      else none

/-- One candidate part: `(original, normalized, normalization_applied)`. -/
abbrev Candidate := Str × Str × Bool

/-- The candidate comprehension of `_build_attempts`: strip, optionally
normalize, drop empties, record whether normalization changed the part. -/
def buildCandidates (parts : List Str) (normalizeEnabled : Bool) :
    List Candidate :=
  parts.filterMap fun part =>
    let original := pyStrip part
    if original = [] then none
    else
      let normalized := if normalizeEnabled then normalizeQuery original
                        else original
      if normalized = [] then none
      else some (original, normalized, normalizeEnabled ∧ normalized ≠ original)

/-- Deduplication of candidates by their normalized form, first occurrence
kept (the `seen` set loop of `_build_attempts`). -/
def dedupCandidates : List Candidate → List Str → List Candidate
  | [], _ => []
  | c :: rest, seen =>
    if c.2.1 ∈ seen then dedupCandidates rest seen
    else c :: dedupCandidates rest (c.2.1 :: seen)

/-- The extra multi-input attempts appended after A/B/C, each labelled `"A"`,
capped at `max_attempts` (the `enumerate(deduped[1:], start=2)` loop). -/
def buildExtraAttempts (maxAttempts : Int) (total : Nat) :
    List SearchAttempt → Nat → List Candidate → List SearchAttempt
  | attempts, _, [] => attempts
  | attempts, idx, c :: rest =>
    if (attempts.length : Int) ≥ maxAttempts then attempts
    else
      let descParts := [s!"다중 입력 {idx}/{total} 선택".toList] ++
        (if c.2.2 then ["정규화".toList] else [])
      buildExtraAttempts maxAttempts total
        (attempts ++ [{ label := "A".toList, query := c.2.1,
                        description := joinDesc descParts }])
        (idx + 1) rest

/-- Final deduplication of attempts by exact query string, first occurrence
kept. -/
def dedupAttempts : List SearchAttempt → List Str → List SearchAttempt
  | [], _ => []
  | a :: rest, seen =>
    if a.query ∈ seen then dedupAttempts rest seen
    else a :: dedupAttempts rest (a.query :: seen)

/-- `SearchService._build_attempts` before the final `[:max_attempts]` slice
(an empty attempt list is returned directly, which the slice preserves). -/
def buildAttemptsPrefix (aliasMap : Str → Option Str) (rawQuery : Str)
    (normalizeEnabled allowMulti : Bool) (maxAttempts : Int) :
    List SearchAttempt :=
  let rawTrimmed := pyStrip rawQuery
  let parts := if allowMulti then splitMultiQuery rawQuery else [rawQuery]
  let parts := if parts = [] then [rawQuery] else parts
  let candidates := buildCandidates parts normalizeEnabled
  let candidates :=
    if candidates = [] ∧ rawTrimmed ≠ [] then
      let normalized := if normalizeEnabled then normalizeQuery rawTrimmed
                        else rawTrimmed
      [((rawTrimmed, normalized,
          normalizeEnabled && decide (normalized ≠ rawTrimmed)) : Candidate)]
    else candidates
  let deduped := dedupCandidates candidates []
  match deduped with
  | [] => []
  | primary :: _ =>
    let primaryQuery := primary.2.1
    let primaryNormalized := primary.2.2
    let descParts :=
      (if deduped.length > 1 then [s!"다중 입력 1/{deduped.length} 선택".toList]
       else []) ++
      (if primaryNormalized then ["정규화".toList] else [])
    let attempts := [({ label := "A".toList, query := primaryQuery,
                        description := joinDesc descParts } : SearchAttempt)]
    let attempts :=
      match buildAttemptB primaryQuery with
      | some b => attempts ++ [b]
      | none => attempts
    let attempts :=
      match buildAttemptC aliasMap primaryQuery normalizeEnabled with
      | some c => attempts ++ [c]
      | none => attempts
    let attempts :=
      if allowMulti ∧ deduped.length > 1 ∧ (attempts.length : Int) < maxAttempts
      then buildExtraAttempts maxAttempts deduped.length attempts 2 deduped.tail
      else attempts
    dedupAttempts attempts []

/-- `SearchService._build_attempts`: the deduplicated attempt list truncated
by the Python slice `[:max_attempts]`. -/
def buildAttempts (aliasMap : Str → Option Str) (rawQuery : Str)
    (normalizeEnabled allowMulti : Bool) (maxAttempts : Int) :
    List SearchAttempt :=
  pySliceTo maxAttempts
    (buildAttemptsPrefix aliasMap rawQuery normalizeEnabled allowMulti
      maxAttempts)

/-- `SearchService._result_score`: `total_count` if positive, else the item
count. -/
def resultScore (r : SearchResult) : Int :=
  if r.total_count > 0 then r.total_count else (r.items.length : Int)

/-- `SearchService._should_retry`. -/
def shouldRetry (r : SearchResult) (minResults : Int) : Bool :=
  r.is_empty ∨ resultScore r < minResults

/-- `SearchService._apply_attempt_metadata` (the in-place mutation rendered
as a functional update).  `used_strategy` and `attempts_count` are not
assigned here — nor anywhere else in `search_with_fallback`. -/
def applyAttemptMetadata (result : SearchResult) (rawQuery : Str)
    (attempt : SearchAttempt) : SearchResult :=
  let rawTrimmed := pyStrip rawQuery
  { result with
    raw_query := rawQuery
    resolved_query := attempt.query
    query := attempt.query
    attempt_label := attempt.label
    attempt_description := attempt.description
    correction_applied :=
      attempt.label ≠ "A".toList ∨ attempt.query ≠ rawTrimmed ∨
        attempt.description ≠ [] }

/-- The best-result update of the fallback loop
(`if best_result is None or self._result_score(result) > ...`). -/
def bestStep (best : Option SearchResult) (r : SearchResult) :
    Option SearchResult :=
  match best with
  | none => some r
  | some b => if resultScore r > resultScore b then some r else some b

/-- The fallback attempt loop of `search_with_fallback`.  Returns the best
result tracked so far, the trace of provider calls (the substituted avatar
names, in order) and the number of `cancel_check` invocations performed. -/
def runAttempts (provider : SearchParams → SearchResult)
    (cancel : Option (Nat → Bool)) (params : SearchParams) (rawQuery : Str)
    (minResults : Int) :
    List SearchAttempt → Nat → Option SearchResult →
      Option SearchResult × List Str × Nat
  | [], polls, best => (best, [], polls)
  | attempt :: rest, polls, best =>
    let cancelled := match cancel with | some c => c polls | none => false
    let polls' := match cancel with | some _ => polls + 1 | none => polls
    if cancelled then (best, [], polls')
    else
      let attemptParams := withAvatarName params attempt.query
      let result := applyAttemptMetadata (provider attemptParams) rawQuery attempt
      let best' := bestStep best result
      if shouldRetry result minResults then
        let out := runAttempts provider cancel params rawQuery minResults
          rest polls' best'
        (out.1, attemptParams.avatar_name :: out.2.1, out.2.2)
      else (best', [attemptParams.avatar_name], polls')

/-- The per-attempt results the loop actually tags, in execution order
(mirrors `runAttempts`; the early exits keep it a prefix). -/
def runResults (provider : SearchParams → SearchResult)
    (cancel : Option (Nat → Bool)) (params : SearchParams) (rawQuery : Str)
    (minResults : Int) : List SearchAttempt → Nat → List SearchResult
  | [], _ => []
  | attempt :: rest, polls =>
    let cancelled := match cancel with | some c => c polls | none => false
    let polls' := match cancel with | some _ => polls + 1 | none => polls
    if cancelled then []
    else
      let attemptParams := withAvatarName params attempt.query
      let result := applyAttemptMetadata (provider attemptParams) rawQuery attempt
      if shouldRetry result minResults then
        result :: runResults provider cancel params rawQuery minResults rest polls'
      else [result]

/-- Association-list lookup used for the verification maps. -/
def lookupAssoc (m : List (Str × Bool)) (k : Str) : Option Bool :=
  (m.find? fun p => p.1 == k).map (·.2)

/-- Python dict assignment `verified_map[item.id] = verified`. -/
def setAssoc (m : List (Str × Bool)) (k : Str) (v : Bool) :
    List (Str × Bool) :=
  if (m.find? fun p => p.1 == k).isSome then
    m.map fun p => if p.1 == k then (k, v) else p
  else m ++ [(k, v)]

/-- The per-item loop of `_verify_top_items`.  The detail-page fetch plus
`_check_avatar_in_description` is the oracle `itemVerified`; the service's
`_detail_verify_cache` starts empty and, within a single invocation, cached
entries have not expired. -/
def verifyLoop (itemVerified : Str → Bool) (cancel : Option (Nat → Bool)) :
    List BoothItem → Nat → List (Str × Bool) → List (Str × Bool) →
      List (Str × Bool)
  | [], _, _, vmap => vmap
  | item :: rest, polls, memo, vmap =>
    let cancelled := match cancel with | some c => c polls | none => false
    let polls' := match cancel with | some _ => polls + 1 | none => polls
    if cancelled then vmap
    else
      let cachedVal := if item.id = [] then none else lookupAssoc memo item.id
      let verified := match cachedVal with
        | some v => v
        | none => itemVerified item.id
      let memo' := if item.id = [] then memo else (item.id, verified) :: memo
      verifyLoop itemVerified cancel rest polls' memo'
        (setAssoc vmap item.id verified)

/-- `SearchService._verify_top_items` (with the detail fetch dependency
available). -/
def verifyTopItems (itemVerified : Str → Bool) (cancel : Option (Nat → Bool))
    (polls : Nat) (result : SearchResult) (params : SearchParams) :
    SearchResult :=
  if result.is_empty then result
  else
    let topN : Int := min params.verify_top_n (result.items.length : Int)
    if topN ≤ 0 then result
    else
      let vmap := verifyLoop itemVerified cancel (result.items.take topN.toNat)
        polls [] []
      if vmap = [] then result
      else
        { result with
          items := result.items.map fun item =>
            { item with
              verified_in_description :=
                (lookupAssoc vmap item.id).getD item.verified_in_description } }

/-- `SearchService.search_with_fallback`.  Returns the result together with
the trace of provider (`self.search`) calls, identified by the avatar name
each call received.  `use_cache` is forwarded unchanged to every `search`
call and is absorbed into `provider`. -/
def searchWithFallback (provider : SearchParams → SearchResult)
    (aliasMap : Str → Option Str) (itemVerified : Str → Bool)
    (cancel : Option (Nat → Bool)) (params : SearchParams)
    (minResults maxAttempts : Int) : SearchResult × List Str :=
  if params.page ≠ 1 ∨ params.normalization_enabled = false then
    (provider params, [params.avatar_name])
  else
    let rawQuery := if params.raw_query = [] then params.avatar_name
                    else params.raw_query
    let attempts := buildAttempts aliasMap rawQuery
      params.normalization_enabled params.allow_multi maxAttempts
    if attempts = [] then (provider params, [params.avatar_name])
    else
      let out := runAttempts provider cancel params rawQuery minResults
        attempts 0 none
      let best :=
        match out.1 with
        | some b => b
        | none =>
          applyAttemptMetadata (SearchResult.empty params.avatar_name) rawQuery
            { label := "A".toList, query := params.avatar_name,
              description := [] }
      let best :=
        if params.verify_mode ∧ params.verify_top_n > 0 then
          verifyTopItems itemVerified cancel out.2.2 best params
        else best
      (best, out.2.1)

/-- The price-range / free-only / price-sort post-processing of
`SearchService._apply_client_side_filters`. -/
def applyClientSideFilters (result : SearchResult) (params : SearchParams) :
    SearchResult :=
  let result :=
    match params.price_range with
    | none => result
    | some pr =>
      if pr.free_only then result.filter_free_only
      else result.filter_by_price pr.min_price pr.max_price
  match params.sort with
  | .priceAsc => result.sort_by_price true
  | .priceDesc => result.sort_by_price false
  | _ => result

/-! ## Concrete provider stubs (mirroring `tests/test_core/test_search_fallback.py`) -/

/-- A stub item, as built by the test stub (`BoothItem(id=str(i), ...)`). -/
def stubItem (i : Nat) : BoothItem :=
  { id := (toString i).toList, name := s!"item{i}".toList }

/-- A stub result with `count` items and `total_count = count`. -/
def stubResult (q : Str) (count : Nat) : SearchResult :=
  { items := (List.range count).map stubItem
    total_count := (count : Int)
    current_page := 1
    total_pages := 1
    has_next := false
    query := q }

/-- `responses.get(avatar_name, 0)`. -/
def responseCount (responses : List (Str × Nat)) (q : Str) : Nat :=
  ((responses.find? fun p => p.1 == q).map (·.2)).getD 0

/-- The stub search provider keyed by avatar name. -/
def stubProvider (responses : List (Str × Nat)) (p : SearchParams) :
    SearchResult :=
  stubResult p.avatar_name (responseCount responses p.avatar_name)

/-- Empty alias map. -/
def aliasNone : Str → Option Str := fun _ => none

/-- Detail-verification oracle that never confirms. -/
def verifyNever : Str → Bool := fun _ => false

/-- The §8 normalization scenario: `"A   B"` yields 0 results, its normalized
form `"A B"` yields 6. -/
def respNorm : List (Str × Nat) := [("A   B".toList, 0), ("A B".toList, 6)]

/-- The parameters of the §8 normalization scenario. -/
def paramsNorm : SearchParams :=
  postInit { avatar_name := "A   B".toList, raw_query := "A   B".toList,
             normalize_enabled := some true, alias_enabled := false,
             fallback_enabled := true, fallback_min_results := 5 }

/-- The cancellation scenario: every query yields 0 results. -/
def respZero : List (Str × Nat) := []

/-- The parameters of the cancellation scenario. -/
def paramsCancel : SearchParams :=
  postInit { avatar_name := "A  B".toList, raw_query := "A  B".toList,
             normalize_enabled := some true, alias_enabled := true,
             fallback_enabled := true, fallback_min_results := 5 }

/-- A `cancel_check` that returns true from its second invocation on. -/
def cancelFromSecond : Nat → Bool := fun n => decide (1 ≤ n)

/-- Parameters for the empty-attempt-plan scenario (`max_attempts = 0`). -/
def paramsDirect : SearchParams := postInit { avatar_name := "a b".toList }

/-- Provider responses for the empty-attempt-plan scenario: the direct search
finds two items. -/
def respDirect : List (Str × Nat) := [("a b".toList, 2)]

/-- Provider responses for the tie scenario: both candidate queries return
three results. -/
def respTie : List (Str × Nat) := [("a b".toList, 3), ("ab".toList, 3)]

/-- Parameters for the tie scenario. -/
def paramsTie : SearchParams := postInit { avatar_name := "a b".toList }

/-- A free item (for the filter counterexample). -/
def itemFree : BoothItem :=
  { id := "1".toList, price_value := some 0, price_type := .free }

/-- A paid item (for the filter counterexample). -/
def itemPaid : BoothItem :=
  { id := "2".toList, price_value := some 1500, price_type := .paid }

/-- A result whose provider-reported total (30) exceeds its fetched items. -/
def resFiltered : SearchResult :=
  { items := [itemFree, itemPaid], total_count := 30, current_page := 1,
    total_pages := 2, has_next := true, query := "q".toList }

/-- Folding the best-result update over a list of attempt results. -/
def bestFold (best : Option SearchResult) (l : List SearchResult) :
    Option SearchResult :=
  l.foldl bestStep best

/-- No two adjacent space characters. -/
def noTwoSpaces (l : Str) : Prop :=
  l.Chain' fun a b => ¬(a = ' ' ∧ b = ' ')

/-- A character that both folding tables leave unchanged. -/
def charStable (c : Char) : Prop :=
  nfkcFold c = c ∧ punctFold c = c

instance (c : Char) : Decidable (charStable c) := by
  unfold charStable
  infer_instance

/-- The normal form produced by `normalizeQuery`: all characters stable under
both folding tables, whitespace only as isolated interior `' '`. -/
def NormalStr (l : Str) : Prop :=
  (∀ c ∈ l, charStable c) ∧ (∀ c ∈ l, isWs c = true → c = ' ') ∧
    noTwoSpaces l ∧ l.dropWhile isWs = l ∧
    l.reverse.dropWhile isWs = l.reverse

/-! ## Helper lemmas -/

theorem pySliceTo_length_le {α : Type} (k : Int) (hk : 0 ≤ k) (l : List α) :
    ((pySliceTo k l).length : Int) ≤ k := by
  unfold pySliceTo
  rw [if_pos hk]
  have h1 : (l.take k.toNat).length ≤ k.toNat := by
    rw [List.length_take]
    exact Nat.min_le_left _ _
  calc ((l.take k.toNat).length : Int) ≤ (k.toNat : Int) := by exact_mod_cast h1
    _ = k := Int.toNat_of_nonneg hk

theorem pySliceTo_zero {α : Type} (l : List α) : pySliceTo 0 l = [] := by
  simp [pySliceTo]

theorem twoStepInduction {motive : Str → Prop} (h0 : motive [])
    (h1 : ∀ c, motive [c])
    (h2 : ∀ c d rest, motive (d :: rest) → motive (c :: d :: rest)) :
    ∀ l, motive l
  | [] => h0
  | [c] => h1 c
  | c :: d :: rest => h2 c d rest (twoStepInduction h0 h1 h2 (d :: rest))

theorem map_fix {f : Char → Char} :
    ∀ {l : Str}, (∀ c ∈ l, f c = c) → l.map f = l := by
  intro l
  induction l with
  | nil => intro; rfl
  | cons a rest ih =>
    intro h
    simp only [List.map_cons]
    rw [h a (by simp), ih fun c hc => h c (by simp [hc])]

theorem mem_dropWhile {p : Char → Bool} {l : Str} {c : Char}
    (h : c ∈ l.dropWhile p) : c ∈ l := by
  rw [← List.takeWhile_append_dropWhile p l]
  exact List.mem_append_right _ h

theorem dropWhile_cases (p : Char → Bool) (l : Str) :
    l.dropWhile p = [] ∨ ∃ c cs, l.dropWhile p = c :: cs ∧ p c = false := by
  induction l with
  | nil => exact Or.inl rfl
  | cons a rest ih =>
    rw [List.dropWhile_cons]
    by_cases h : p a = true
    · rw [if_pos h]
      exact ih
    · rw [if_neg h]
      exact Or.inr ⟨a, rest, rfl, by simpa using h⟩

theorem pyStrip_has_nonWs (l : Str) (h : pyStrip l ≠ []) :
    ∃ c ∈ pyStrip l, isWs c = false := by
  unfold pyStrip at *
  rcases dropWhile_cases isWs (l.dropWhile isWs).reverse with h0 | ⟨c, cs, hc, hw⟩
  · rw [h0] at h
    simp at h
  · rw [hc]
    exact ⟨c, by simp, hw⟩

theorem squeezeSpaces_head :
    ∀ (l : Str) (a : Char), (squeezeSpaces (a :: l)).head? = some a := by
  intro l
  induction l with
  | nil => intro a; rfl
  | cons b rest ih =>
    intro a
    show (squeezeSpaces (a :: b :: rest)).head? = some a
    unfold squeezeSpaces
    by_cases h : a = ' ' ∧ b = ' '
    · rw [if_pos h, ih b, h.1, h.2]
    · rw [if_neg h]
      rfl

theorem squeezeSpaces_mem :
    ∀ (l : Str), ∀ c ∈ squeezeSpaces l, c ∈ l := by
  refine twoStepInduction ?_ ?_ ?_
  · intro c hc
    exact hc
  · intro a c hc
    exact hc
  · intro a b rest ih c hc
    unfold squeezeSpaces at hc
    by_cases h : a = ' ' ∧ b = ' '
    · rw [if_pos h] at hc
      exact List.mem_cons_of_mem a (ih c hc)
    · rw [if_neg h] at hc
      rcases List.mem_cons.1 hc with rfl | hc
      · exact List.mem_cons_self _ _
      · exact List.mem_cons_of_mem a (ih c hc)

theorem squeezeSpaces_chain :
    ∀ l : Str, noTwoSpaces (squeezeSpaces l) := by
  refine twoStepInduction ?_ ?_ ?_
  · exact List.chain'_nil
  · intro c
    exact List.chain'_singleton c
  · intro a b rest ih
    unfold squeezeSpaces
    by_cases h : a = ' ' ∧ b = ' '
    · rw [if_pos h]
      exact ih
    · rw [if_neg h]
      refine List.chain'_cons'.2 ⟨?_, ih⟩
      intro y hy
      rw [squeezeSpaces_head rest b] at hy
      obtain rfl := Option.some.inj hy
      exact h

theorem squeezeSpaces_of_chain :
    ∀ l : Str, noTwoSpaces l → squeezeSpaces l = l := by
  refine twoStepInduction ?_ ?_ ?_
  · intro _; rfl
  · intro c _; rfl
  · intro a b rest ih h
    have h1 := (List.chain'_cons.1 h).1
    have h2 := (List.chain'_cons.1 h).2
    unfold squeezeSpaces
    rw [if_neg h1, ih h2]

theorem wsCollapse_mem {l : Str} {c : Char} (h : c ∈ wsCollapse l) :
    c = ' ' ∨ (c ∈ l ∧ isWs c = false) := by
  unfold wsCollapse at h
  obtain ⟨d, hd, hdc⟩ := List.mem_map.1 (squeezeSpaces_mem _ c h)
  by_cases hw : isWs d = true
  · left
    rw [← hdc, if_pos hw]
  · have hcd : c = d := by rw [← hdc, if_neg hw]
    subst hcd
    exact Or.inr ⟨hd, by simpa using hw⟩

theorem wsCollapse_ws_space {l : Str} {c : Char} (h : c ∈ wsCollapse l)
    (hw : isWs c = true) : c = ' ' := by
  rcases wsCollapse_mem h with h' | ⟨_, hnw⟩
  · exact h'
  · rw [hw] at hnw
    cases hnw

theorem wsCollapse_chain (l : Str) : noTwoSpaces (wsCollapse l) :=
  squeezeSpaces_chain _

theorem wsCollapse_fix {l : Str} (hws : ∀ c ∈ l, isWs c = true → c = ' ')
    (hch : noTwoSpaces l) : wsCollapse l = l := by
  unfold wsCollapse
  have hmap : l.map (fun c => if isWs c then ' ' else c) = l := by
    apply map_fix
    intro c hc
    by_cases hw : isWs c = true
    · rw [if_pos hw]
      exact (hws c hc hw).symm
    · rw [if_neg hw]
  rw [hmap]
  exact squeezeSpaces_of_chain l hch

theorem chain'_dropWhile {R : Char → Char → Prop} {p : Char → Bool}
    {l : Str} (h : List.Chain' R l) : List.Chain' R (l.dropWhile p) := by
  rw [← List.takeWhile_append_dropWhile p l] at h
  exact (List.chain'_append.1 h).2.1

theorem noTwoSpaces_reverse {l : Str} (h : noTwoSpaces l) :
    noTwoSpaces l.reverse := by
  unfold noTwoSpaces at *
  rw [List.chain'_reverse]
  exact h.imp fun {a b} hab hba => hab ⟨hba.2, hba.1⟩

theorem noTwoSpaces_pyStrip {l : Str} (h : noTwoSpaces l) :
    noTwoSpaces (pyStrip l) := by
  unfold pyStrip
  exact noTwoSpaces_reverse (chain'_dropWhile (noTwoSpaces_reverse
    (chain'_dropWhile h)))

theorem dropWhile_idem (p : Char → Bool) (l : Str) :
    (l.dropWhile p).dropWhile p = l.dropWhile p := by
  rcases dropWhile_cases p l with h | ⟨c, cs, hc, hw⟩
  · rw [h]
    rfl
  · rw [hc, List.dropWhile_cons, if_neg (by simp [hw])]

theorem dropWhile_eq_self_of_head {p : Char → Bool} {l : Str}
    (h : ∀ c cs, l = c :: cs → p c = false) : l.dropWhile p = l := by
  cases l with
  | nil => rfl
  | cons c cs => rw [List.dropWhile_cons, if_neg (by simp [h c cs rfl])]

theorem pyStrip_back_fixed (l : Str) :
    (pyStrip l).reverse.dropWhile isWs = (pyStrip l).reverse := by
  unfold pyStrip
  rw [List.reverse_reverse]
  exact dropWhile_idem _ _

theorem back_trim_head_not_ws (l : Str) {c : Char} {cs : List Char}
    (hcs : ((l.dropWhile isWs).reverse.dropWhile isWs).reverse = c :: cs) :
    isWs c = false := by
  have htd : (l.dropWhile isWs).reverse.takeWhile isWs ++
      (l.dropWhile isWs).reverse.dropWhile isWs = (l.dropWhile isWs).reverse :=
    List.takeWhile_append_dropWhile isWs (l.dropWhile isWs).reverse
  have hsplit : l.dropWhile isWs =
      ((l.dropWhile isWs).reverse.dropWhile isWs).reverse ++
        ((l.dropWhile isWs).reverse.takeWhile isWs).reverse := by
    calc l.dropWhile isWs = (l.dropWhile isWs).reverse.reverse :=
          (List.reverse_reverse _).symm
      _ = ((l.dropWhile isWs).reverse.takeWhile isWs ++
            (l.dropWhile isWs).reverse.dropWhile isWs).reverse := by rw [htd]
      _ = ((l.dropWhile isWs).reverse.dropWhile isWs).reverse ++
            ((l.dropWhile isWs).reverse.takeWhile isWs).reverse :=
          List.reverse_append _ _
  rw [hcs, List.cons_append] at hsplit
  rcases dropWhile_cases isWs l with h0 | ⟨c0, cs0, hc0, hw0⟩
  · rw [h0] at hsplit
    cases hsplit
  · rw [hc0] at hsplit
    injection hsplit with h1 _
    rw [← h1]
    exact hw0

theorem pyStrip_front_fixed (l : Str) :
    (pyStrip l).dropWhile isWs = pyStrip l := by
  apply dropWhile_eq_self_of_head
  intro c cs hcs
  exact back_trim_head_not_ws l hcs

theorem pyStrip_fix {l : Str} (hf : l.dropWhile isWs = l)
    (hb : l.reverse.dropWhile isWs = l.reverse) : pyStrip l = l := by
  unfold pyStrip
  rw [hf, hb, List.reverse_reverse]

theorem tableLookup_eq_some {t : List (Char × Char)} {c e : Char}
    (h : tableLookup t c = some e) : ∃ q ∈ t, q.2 = e := by
  unfold tableLookup at h
  obtain ⟨q, hfind, he⟩ := Option.map_eq_some'.1 h
  exact ⟨q, List.mem_of_find?_eq_some hfind, he⟩

theorem punct_out_stable : ∀ q ∈ punctTable, charStable q.2 := by decide

theorem nfkc_out_fixed : ∀ q ∈ nfkcTable, nfkcFold q.2 = q.2 := by decide

theorem space_stable : charStable ' ' := by decide

theorem stable_after (c : Char) : charStable (punctFold (nfkcFold c)) := by
  rcases hp : tableLookup punctTable (nfkcFold c) with _ | e
  · have hpf : punctFold (nfkcFold c) = nfkcFold c := by
      unfold punctFold
      rw [hp]
      rfl
    rw [hpf]
    constructor
    · rcases hn : tableLookup nfkcTable c with _ | b
      · have hcc : nfkcFold c = c := by
          unfold nfkcFold
          rw [hn]
          rfl
        rw [hcc]
        exact hcc
      · have hb : nfkcFold c = b := by
          unfold nfkcFold
          rw [hn]
          rfl
        rw [hb]
        obtain ⟨q, hq, he⟩ := tableLookup_eq_some hn
        rw [← he]
        exact nfkc_out_fixed q hq
    · exact hpf
  · obtain ⟨q, hq, he⟩ := tableLookup_eq_some hp
    have hpe : punctFold (nfkcFold c) = e := by
      unfold punctFold
      rw [hp]
      rfl
    rw [hpe, ← he]
    exact punct_out_stable q hq

theorem pyStrip_mem {l : Str} {c : Char} (h : c ∈ pyStrip l) : c ∈ l := by
  unfold pyStrip at h
  exact mem_dropWhile (List.mem_reverse.1
    (mem_dropWhile (List.mem_reverse.1 h)))

theorem normalizeQuery_chars_stable (x : Str) :
    ∀ c ∈ normalizeQuery x, charStable c := by
  intro c hc
  unfold normalizeQuery at hc
  by_cases h0 : nfkcMap x = []
  · rw [if_pos h0] at hc
    cases hc
  · rw [if_neg h0] at hc
    rcases wsCollapse_mem (pyStrip_mem hc) with rfl | ⟨hmem, _⟩
    · exact space_stable
    · obtain ⟨y, hy, hyc⟩ := List.mem_map.1 hmem
      obtain ⟨d, _, hdy⟩ := List.mem_map.1 hy
      rw [← hyc, ← hdy]
      exact stable_after d

theorem normalizeQuery_normal (x : Str) : NormalStr (normalizeQuery x) := by
  by_cases h0 : nfkcMap x = []
  · have heq : normalizeQuery x = [] := by
      unfold normalizeQuery
      rw [if_pos h0]
    rw [heq]
    exact ⟨by simp, by simp, List.chain'_nil, rfl, rfl⟩
  · have heq : normalizeQuery x = pyStrip (wsCollapse (punctMap (nfkcMap x))) := by
      unfold normalizeQuery
      rw [if_neg h0]
    refine ⟨normalizeQuery_chars_stable x, ?_, ?_, ?_, ?_⟩
    · intro c hc hw
      rw [heq] at hc
      exact wsCollapse_ws_space (pyStrip_mem hc) hw
    · rw [heq]
      exact noTwoSpaces_pyStrip (wsCollapse_chain _)
    · rw [heq]
      exact pyStrip_front_fixed _
    · rw [heq]
      exact pyStrip_back_fixed _

theorem normalizeQuery_fixed {l : Str} (h : NormalStr l) :
    normalizeQuery l = l := by
  obtain ⟨hstable, hws, hchain, hf, hb⟩ := h
  have hn : nfkcMap l = l := map_fix fun c hc => (hstable c hc).1
  by_cases h0 : l = []
  · subst h0
    rfl
  · unfold normalizeQuery
    rw [hn, if_neg h0]
    have hp : punctMap l = l := map_fix fun c hc => (hstable c hc).2
    rw [hp, wsCollapse_fix hws hchain, pyStrip_fix hf hb]

theorem mem_cleanParts {e : Str} {parts : List Str} (h : e ∈ cleanParts parts) :
    e ≠ [] ∧ ∃ part, e = pyStrip part := by
  unfold cleanParts at h
  obtain ⟨a, _, ha⟩ := List.mem_filterMap.1 h
  by_cases hcond : a ≠ [] ∧ pyStrip a ≠ []
  · rw [if_pos hcond] at ha
    obtain rfl := Option.some.inj ha
    exact ⟨hcond.2, a, rfl⟩
  · rw [if_neg hcond] at ha
    cases ha

theorem cleanParts_entry_ok {e : Str} {parts : List Str}
    (h : e ∈ cleanParts parts) : e ≠ [] ∧ ¬∀ c ∈ e, isWs c = true := by
  obtain ⟨hne, part, hpart⟩ := mem_cleanParts h
  refine ⟨hne, ?_⟩
  intro hall
  obtain ⟨c, hc, hw⟩ := pyStrip_has_nonWs part (hpart ▸ hne)
  exact absurd (hall c (hpart ▸ hc)) (by simp [hw])

theorem dedupParts_sublist :
    ∀ (l seen : List Str), List.Sublist (dedupParts l seen) l := by
  intro l
  induction l with
  | nil => intro seen; exact List.nil_sublist []
  | cons p rest ih =>
    intro seen
    unfold dedupParts
    by_cases h : p ≠ [] ∧ p ∉ seen
    · rw [if_pos h]
      exact (ih (p :: seen)).cons₂ p
    · rw [if_neg h]
      exact (ih seen).cons p

theorem dedupParts_not_mem_seen :
    ∀ (l seen : List Str) (e : Str), e ∈ dedupParts l seen → e ∉ seen := by
  intro l
  induction l with
  | nil => intro seen e he; cases he
  | cons p rest ih =>
    intro seen e he
    unfold dedupParts at he
    by_cases h : p ≠ [] ∧ p ∉ seen
    · rw [if_pos h] at he
      rcases List.mem_cons.1 he with rfl | he
      · exact h.2
      · intro hmem
        exact ih (p :: seen) e he (List.mem_cons_of_mem p hmem)
    · rw [if_neg h] at he
      exact ih seen e he

theorem dedupParts_nodup : ∀ (l seen : List Str), (dedupParts l seen).Nodup := by
  intro l
  induction l with
  | nil => intro seen; exact List.nodup_nil
  | cons p rest ih =>
    intro seen
    unfold dedupParts
    by_cases h : p ≠ [] ∧ p ∉ seen
    · rw [if_pos h]
      refine List.nodup_cons.2 ⟨?_, ih (p :: seen)⟩
      intro hmem
      exact dedupParts_not_mem_seen rest (p :: seen) p hmem (List.mem_cons_self _ _)
    · rw [if_neg h]
      exact ih seen

theorem dedupParts_mem_of :
    ∀ (l seen : List Str) (e : Str), e ∈ l → e ≠ [] →
      e ∈ seen ∨ e ∈ dedupParts l seen := by
  intro l
  induction l with
  | nil => intro seen e he; cases he
  | cons p rest ih =>
    intro seen e he hne
    unfold dedupParts
    by_cases h : p ≠ [] ∧ p ∉ seen
    · rw [if_pos h]
      rcases List.mem_cons.1 he with rfl | he
      · exact Or.inr (List.mem_cons_self _ _)
      · rcases ih (p :: seen) e he hne with hs | hd
        · rcases List.mem_cons.1 hs with rfl | hs
          · exact Or.inr (List.mem_cons_self _ _)
          · exact Or.inl hs
        · exact Or.inr (List.mem_cons_of_mem p hd)
    · rw [if_neg h]
      rcases List.mem_cons.1 he with rfl | he
      · rcases not_and_or.1 h with hp | hp
        · exact absurd (not_not.1 hp) hne
        · exact Or.inl (not_not.1 hp)
      · exact ih seen e he hne

theorem bestFold_cons (b : Option SearchResult) (r : SearchResult)
    (l : List SearchResult) : bestFold b (r :: l) = bestFold (bestStep b r) l :=
  rfl

theorem bestFold_some_spec (l : List SearchResult) :
    ∀ b : SearchResult, ∃ r, bestFold (some b) l = some r ∧
      ((r = b ∧ ∀ x ∈ l, resultScore x ≤ resultScore b) ∨
       (∃ l1 l2, l = l1 ++ r :: l2 ∧ resultScore b < resultScore r ∧
         (∀ x ∈ l1, resultScore x < resultScore r) ∧
         (∀ x ∈ l2, resultScore x ≤ resultScore r))) := by
  induction l with
  | nil =>
    intro b
    exact ⟨b, rfl, Or.inl ⟨rfl, by simp⟩⟩
  | cons a rest ih =>
    intro b
    by_cases hab : resultScore a > resultScore b
    · have hstep : bestStep (some b) a = some a := by simp [bestStep, hab]
      obtain ⟨r, hr, hcase⟩ := ih a
      refine ⟨r, by rw [bestFold_cons, hstep]; exact hr, Or.inr ?_⟩
      rcases hcase with ⟨hra, hall⟩ | ⟨l1, l2, heq, hlt, h1, h2⟩
      · subst hra
        exact ⟨[], rest, rfl, hab, by simp, hall⟩
      · refine ⟨a :: l1, l2, by rw [heq, List.cons_append], lt_trans hab hlt, ?_, h2⟩
        intro x hx
        rcases List.mem_cons.1 hx with hx | hx
        · subst hx; exact hlt
        · exact h1 x hx
    · have hstep : bestStep (some b) a = some b := by simp [bestStep, hab]
      obtain ⟨r, hr, hcase⟩ := ih b
      refine ⟨r, by rw [bestFold_cons, hstep]; exact hr, ?_⟩
      have hba : resultScore a ≤ resultScore b := not_lt.1 hab
      rcases hcase with ⟨hrb, hall⟩ | ⟨l1, l2, heq, hlt, h1, h2⟩
      · refine Or.inl ⟨hrb, ?_⟩
        intro x hx
        rcases List.mem_cons.1 hx with hx | hx
        · subst hx; exact hba
        · exact hall x hx
      · refine Or.inr ⟨a :: l1, l2, by rw [heq, List.cons_append], hlt, ?_, h2⟩
        intro x hx
        rcases List.mem_cons.1 hx with hx | hx
        · subst hx; exact lt_of_le_of_lt hba hlt
        · exact h1 x hx

theorem bestFold_none_spec (l : List SearchResult) (hl : l ≠ []) :
    ∃ r l1 l2, l = l1 ++ r :: l2 ∧ bestFold none l = some r ∧
      (∀ x ∈ l1, resultScore x < resultScore r) ∧
      (∀ x ∈ l2, resultScore x ≤ resultScore r) := by
  cases l with
  | nil => exact absurd rfl hl
  | cons a rest =>
    have hstart : bestFold none (a :: rest) = bestFold (some a) rest := rfl
    obtain ⟨r, hr, hcase⟩ := bestFold_some_spec rest a
    rcases hcase with ⟨hra, hall⟩ | ⟨l1, l2, heq, hlt, h1, h2⟩
    · subst hra
      exact ⟨r, [], rest, rfl, by rw [hstart]; exact hr, by simp, hall⟩
    · refine ⟨r, a :: l1, l2, by rw [heq, List.cons_append], by rw [hstart]; exact hr, ?_, h2⟩
      intro x hx
      rcases List.mem_cons.1 hx with hx | hx
      · subst hx; exact hlt
      · exact h1 x hx

theorem runAttempts_fst (provider : SearchParams → SearchResult)
    (cancel : Option (Nat → Bool)) (params : SearchParams) (raw : Str)
    (minR : Int) (attempts : List SearchAttempt) :
    ∀ (polls : Nat) (b : Option SearchResult),
      (runAttempts provider cancel params raw minR attempts polls b).1 =
        bestFold b (runResults provider cancel params raw minR attempts polls) := by
  induction attempts with
  | nil => intro polls b; rfl
  | cons a rest ih =>
    intro polls b
    cases cancel with
    | none =>
      simp only [runAttempts, runResults]
      by_cases hsr : shouldRetry
        (applyAttemptMetadata (provider (withAvatarName params a.query)) raw a)
        minR = true
      · simp only [hsr, if_true, bestFold_cons]
        exact ih polls (bestStep b _)
      · simp only [hsr, if_false, bestFold_cons]
        rfl
    | some c =>
      simp only [runAttempts, runResults]
      by_cases hcp : c polls = true
      · simp only [hcp, if_true]
        rfl
      · simp only [hcp, if_false]
        by_cases hsr : shouldRetry
          (applyAttemptMetadata (provider (withAvatarName params a.query)) raw a)
          minR = true
        · simp only [hsr, if_true, bestFold_cons]
          exact ih (polls + 1) (bestStep b _)
        · simp only [hsr, if_false, bestFold_cons]
          rfl

theorem runAttempts_cancelled (provider : SearchParams → SearchResult)
    (c : Nat → Bool) (params : SearchParams) (raw : Str) (minR : Int)
    (a : SearchAttempt) (rest : List SearchAttempt) (polls : Nat)
    (best : Option SearchResult) (h : c polls = true) :
    runAttempts provider (some c) params raw minR (a :: rest) polls best =
      (best, [], polls + 1) := by
  simp [runAttempts, h]

theorem verifyTopItems_of_empty (iv : Str → Bool)
    (cancel : Option (Nat → Bool)) (polls : Nat) (r : SearchResult)
    (params : SearchParams) (h : r.items = []) :
    verifyTopItems iv cancel polls r params = r := by
  have he : r.is_empty = true := by simp [SearchResult.is_empty, h]
  simp [verifyTopItems, he]

/-! ## Claim theorems -/

/-- Claim C5: `cache_key()` is a pure function of exactly avatar name,
category, sort, price range and page: two `SearchParams` agreeing on those
five fields yield the same pre-hash key string, hence the same digest under
any fixed (deterministic, machine-independent) hash function — in particular
under the code's SHA-256-prefix digest. -/
theorem cache_key_depends_only_on_listed_fields
    (digest : Str → Str) (p q : SearchParams)
    (h1 : p.avatar_name = q.avatar_name) (h2 : p.category = q.category)
    (h3 : p.sort = q.sort) (h4 : p.price_range = q.price_range)
    (h5 : p.page = q.page) :
    digest (cacheKeyString p) = digest (cacheKeyString q) := by
  unfold cacheKeyString
  rw [h1, h2, h3, h4, h5]

/-- Witness for C5: two params agreeing on the five keyed fields but
differing in `resolved_query`, `used_strategy`, `raw_query` and `per_page`
produce the same key string. -/
theorem cache_key_depends_only_on_listed_fields_witness :
    (postInit { avatar_name := "桔梗".toList }).avatar_name =
      (postInit { avatar_name := "桔梗".toList, raw_query := "キキョウ".toList,
                  per_page := 48, resolved_query := some "桔梗".toList,
                  used_strategy := some "alias".toList }).avatar_name ∧
    cacheKeyString (postInit { avatar_name := "桔梗".toList }) =
      cacheKeyString
        (postInit { avatar_name := "桔梗".toList, raw_query := "キキョウ".toList,
                    per_page := 48, resolved_query := some "桔梗".toList,
                    used_strategy := some "alias".toList }) :=
  ⟨by decide,
   cache_key_depends_only_on_listed_fields (fun s => s) _ _ (by decide)
     (by decide) (by decide) (by decide) (by decide)⟩

/-- Claim C10 counterexample: `filter_free_only` (reached from `search()` via
`_apply_client_side_filters` for a free-only price range) recomputes
`total_count` from the retained items: a result with provider total 30 and
one free item among two comes back with `total_count = 1`. -/
theorem filter_total_count_counterexample :
    resFiltered.total_count = 30 ∧
    resFiltered.filter_free_only.total_count = 1 ∧
    resFiltered.filter_free_only.total_count ≠ resFiltered.total_count ∧
    (resFiltered.filter_by_price (some 1) (some 10)).total_count = 0 := by
  decide

/-- Claim C10 (amended): the client-side price filters `filter_by_price` and
`filter_free_only` set `total_count` to the number of retained items, while
`sort_by_price` preserves the provider-reported `total_count`. -/
theorem filter_sets_total_count_to_retained (r : SearchResult)
    (mn mx : Option Int) (asc : Bool) :
    (r.filter_by_price mn mx).total_count =
      ((r.items.filter fun i => i.matches_price_range mn mx).length : Int) ∧
    (r.filter_free_only).total_count =
      ((r.items.filter fun i => i.is_free).length : Int) ∧
    (r.sort_by_price asc).total_count = r.total_count :=
  ⟨rfl, rfl, rfl⟩

/-- Claim C7 counterexample: with `max_attempts = -1` (which is ≤ 0) and raw
query `"a b"`, the planner returns one attempt, not the empty list, and its
length exceeds `max_attempts` — Python's `[:max_attempts]` slice drops
trailing elements for negative bounds instead of clearing the list. -/
theorem negative_max_attempts_counterexample :
    (-1 : Int) ≤ 0 ∧
    buildAttempts aliasNone "a b".toList true false (-1) =
      [{ label := "A".toList, query := "a b".toList, description := [] }] ∧
    ¬ ((buildAttempts aliasNone "a b".toList true false (-1)).length : Int)
        ≤ -1 := by
  refine ⟨by decide, by decide, by decide⟩

/-- Claim C7 (amended): for every raw query and flag combination the attempt
planner returns at most `max_attempts` attempts whenever `max_attempts ≥ 0`,
and returns the empty list when `max_attempts = 0`; for negative
`max_attempts` the Python slice instead drops trailing attempts. -/
theorem build_attempts_cap_nonneg (aliasMap : Str → Option Str) (raw : Str)
    (normalizeEnabled allowMulti : Bool) (k : Int) (hk : 0 ≤ k) :
    ((buildAttempts aliasMap raw normalizeEnabled allowMulti k).length : Int)
      ≤ k ∧
    (k = 0 → buildAttempts aliasMap raw normalizeEnabled allowMulti k = []) := by
  constructor
  · exact pySliceTo_length_le k hk _
  · intro h0
    subst h0
    exact pySliceTo_zero _

/-- Witness for C7 (amended): at `max_attempts = 3` the planner for
`"a, b"` with multi-input allowed returns at most three attempts. -/
theorem build_attempts_cap_nonneg_witness :
    (0 : Int) ≤ 3 ∧
    ((buildAttempts aliasNone "a, b".toList true true 3).length : Int) ≤ 3 :=
  ⟨by decide,
   (build_attempts_cap_nonneg aliasNone "a, b".toList true true 3
     (by decide)).1⟩

/-- Claim C1: in the §8 normalization scenario (provider returns 0 results
for `"A   B"`, 6 for `"A B"`, `min_results = 5`) the orchestrator calls the
provider exactly once, with the already-normalized query `"A B"` — not twice
in order `["A   B", "A B"]` as the claim (and the repository's own test
`test_fallback_stops_on_normalized`) states, because `_build_attempts` makes
the normalized form the attempt-A query itself. -/
theorem fallback_scenario_calls_provider_once_with_normalized :
    (searchWithFallback (stubProvider respNorm) aliasNone verifyNever none
      paramsNorm 5 3).2 = ["A B".toList] ∧
    (searchWithFallback (stubProvider respNorm) aliasNone verifyNever none
      paramsNorm 5 3).2 ≠ ["A   B".toList, "A B".toList] ∧
    (searchWithFallback (stubProvider respNorm) aliasNone verifyNever none
      paramsNorm 5 3).1.total_count = 6 := by
  refine ⟨by decide, by decide, by decide⟩

/-- Claim C2: in the same §8 scenario the returned result's `used_strategy`
is still the default `"original"` and `attempts_count` is still the default
`1` — `search_with_fallback` never assigns either field, contradicting the
claim (and the repository's own test assertions `used_strategy ==
"normalized"`, `attempts_count == 2`). -/
theorem fallback_scenario_leaves_default_strategy_metadata :
    (searchWithFallback (stubProvider respNorm) aliasNone verifyNever none
      paramsNorm 5 3).1.used_strategy = "original".toList ∧
    (searchWithFallback (stubProvider respNorm) aliasNone verifyNever none
      paramsNorm 5 3).1.attempts_count = 1 := by
  refine ⟨by decide, by decide⟩

/-- Claim C4: cancellation is polled before every fallback attempt and once
the poll answers true no further provider call is started — the loop returns
the accumulated best result as a normal value (never an exception, which the
total embedding cannot model anyway).  In the scenario with a `cancel_check`
true from its second invocation and all queries returning 0 results, the
provider is called exactly once and the partial (empty, attempt-A-tagged)
result is returned. -/
theorem cancellation_stops_loop :
    (∀ (provider : SearchParams → SearchResult) (c : Nat → Bool)
       (params : SearchParams) (raw : Str) (minR : Int) (a : SearchAttempt)
       (rest : List SearchAttempt) (polls : Nat) (best : Option SearchResult),
       c polls = true →
       runAttempts provider (some c) params raw minR (a :: rest) polls best =
         (best, [], polls + 1)) ∧
    (searchWithFallback (stubProvider respZero) aliasNone verifyNever
      (some cancelFromSecond) paramsCancel 5 3).2 = ["A B".toList] ∧
    (searchWithFallback (stubProvider respZero) aliasNone verifyNever
      (some cancelFromSecond) paramsCancel 5 3).1.resolved_query =
      "A B".toList ∧
    (searchWithFallback (stubProvider respZero) aliasNone verifyNever
      (some cancelFromSecond) paramsCancel 5 3).1.items = [] := by
  refine ⟨?_, by decide, by decide, by decide⟩
  intro provider c params raw minR a rest polls best h
  exact runAttempts_cancelled provider c params raw minR a rest polls best h

/-- Witness for C4: the generic cancellation clause applied to a concrete
always-true `cancel_check` at poll 0. -/
theorem cancellation_stops_loop_witness :
    (fun _ : Nat => true) 0 = true ∧
    runAttempts (stubProvider respZero) (some fun _ => true) paramsCancel
      "A  B".toList 5 [{ label := "A".toList, query := "A B".toList }] 0 none =
      (none, [], 1) :=
  ⟨rfl,
   cancellation_stops_loop.1 (stubProvider respZero) (fun _ => true)
     paramsCancel "A  B".toList 5
     { label := "A".toList, query := "A B".toList } [] 0 none rfl⟩

/-- Claim C9: `normalize_query` is a total function — `None` and the empty
string both yield the empty string — and idempotent:
`normalize(normalize(x)) = normalize(x)` for every string `x` (including
strings of full-width punctuation only, covered by the universal
quantifier). -/
theorem normalize_total_and_idempotent :
    normalizeQueryOpt none = [] ∧ normalizeQuery [] = [] ∧
    ∀ x : Str, normalizeQuery (normalizeQuery x) = normalizeQuery x :=
  ⟨rfl, rfl, fun x => normalizeQuery_fixed (normalizeQuery_normal x)⟩

/-- Claim C8 counterexample: `split_multi_query` — the splitter the planner
actually calls — does not remove exact duplicates: `"a,a"` splits to
`["a", "a"]`. -/
theorem split_multi_keeps_duplicates_counterexample :
    splitMultiQuery "a,a".toList = ["a".toList, "a".toList] ∧
    ¬(splitMultiQuery "a,a".toList).Nodup := by
  refine ⟨by decide, by decide⟩

/-- Claim C8 (amended): both splitters split on comma, semicolon, slash,
pipe and newline, trim each part and never return an empty or
whitespace-only entry; only `parse_multi_query` additionally removes exact
duplicates (keeping the first occurrence in order — it is a duplicate-free
sublist of `split_multi_query`'s output with the same members), while
`split_multi_query` retains duplicates. -/
theorem multi_split_properties (t : Str) :
    (∀ e ∈ splitMultiQuery t, e ≠ [] ∧ ¬∀ c ∈ e, isWs c = true) ∧
    (∀ e ∈ parseMultiQuery t, e ≠ [] ∧ ¬∀ c ∈ e, isWs c = true) ∧
    (parseMultiQuery t).Nodup ∧
    List.Sublist (parseMultiQuery t) (splitMultiQuery t) ∧
    (∀ e, e ∈ splitMultiQuery t ↔ e ∈ parseMultiQuery t) := by
  refine ⟨fun e he => cleanParts_entry_ok he, ?_, dedupParts_nodup _ _,
    dedupParts_sublist _ _, ?_⟩
  · intro e he
    exact cleanParts_entry_ok ((dedupParts_sublist _ _).subset he)
  · intro e
    constructor
    · intro he
      rcases dedupParts_mem_of _ [] e he (cleanParts_entry_ok he).1 with h | h
      · cases h
      · exact h
    · intro he
      exact (dedupParts_sublist _ _).subset he

/-- Witness for C8 (amended): concrete instance on `"a, ,a;b"` — the entry
`"a"` of `split_multi_query` is non-empty and not whitespace-only, and
`parse_multi_query` of the same input is the deduplicated `["a", "b"]`. -/
theorem multi_split_properties_witness :
    "a".toList ∈ splitMultiQuery "a, ,a;b".toList ∧
    ("a".toList ≠ [] ∧ ¬∀ c ∈ ("a".toList : Str), isWs c = true) ∧
    parseMultiQuery "a, ,a;b".toList = ["a".toList, "b".toList] :=
  ⟨by decide,
   (multi_split_properties "a, ,a;b".toList).1 "a".toList (by decide),
   by decide⟩

/-- Claim C3: throughout the fallback attempt loop the tracked best result
is the earliest-seen attempt result with maximal score (`_result_score`:
`total_count` if positive, else item count): the loop's final best result
splits the executed result list as `l1 ++ r :: l2` where every earlier
result scores strictly less and every later result scores no more — so a
later result never displaces the best on a tie and on ties the earliest
attempt's result is returned. -/
theorem best_result_is_earliest_max (provider : SearchParams → SearchResult)
    (cancel : Option (Nat → Bool)) (params : SearchParams) (raw : Str)
    (minR : Int) (attempts : List SearchAttempt) (polls : Nat)
    (h : runResults provider cancel params raw minR attempts polls ≠ []) :
    ∃ r l1 l2,
      runResults provider cancel params raw minR attempts polls =
        l1 ++ r :: l2 ∧
      (runAttempts provider cancel params raw minR attempts polls none).1 =
        some r ∧
      (∀ x ∈ l1, resultScore x < resultScore r) ∧
      (∀ x ∈ l2, resultScore x ≤ resultScore r) := by
  rw [runAttempts_fst]
  exact bestFold_none_spec _ h

/-- Witness for C3: a concrete tie — both planned queries return three
results (below `min_results = 5`), and the loop's best result exists with
the guaranteed split. -/
theorem best_result_is_earliest_max_witness :
    runResults (stubProvider respTie) none paramsTie "a b".toList 5
      (buildAttempts aliasNone "a b".toList true false 3) 0 ≠ [] ∧
    ∃ r l1 l2,
      runResults (stubProvider respTie) none paramsTie "a b".toList 5
        (buildAttempts aliasNone "a b".toList true false 3) 0 =
        l1 ++ r :: l2 ∧
      (runAttempts (stubProvider respTie) none paramsTie "a b".toList 5
        (buildAttempts aliasNone "a b".toList true false 3) 0 none).1 =
        some r ∧
      (∀ x ∈ l1, resultScore x < resultScore r) ∧
      (∀ x ∈ l2, resultScore x ≤ resultScore r) :=
  ⟨by decide,
   best_result_is_earliest_max (stubProvider respTie) none paramsTie
     "a b".toList 5 (buildAttempts aliasNone "a b".toList true false 3) 0
     (by decide)⟩

/-- Claim C6 counterexample: with `max_attempts = 0` the planner's attempt
list is empty, yet `search_with_fallback` does not return an empty result
tagged with the original avatar name — it falls through to a single direct
`search(params)` whose stubbed result has two items and an untagged (empty)
`resolved_query`. -/
theorem empty_attempts_direct_search_counterexample :
    buildAttempts aliasNone "a b".toList true false 0 = [] ∧
    (searchWithFallback (stubProvider respDirect) aliasNone verifyNever none
      paramsDirect 3 0).1.items ≠ [] ∧
    (searchWithFallback (stubProvider respDirect) aliasNone verifyNever none
      paramsDirect 3 0).1.resolved_query ≠ paramsDirect.avatar_name := by
  refine ⟨by decide, by decide, by decide⟩

/-- Claim C6 (amended): if the planner's attempt list is empty,
`search_with_fallback` falls back to a single direct `search(params)` call
and returns its result unchanged; if attempts were planned but none was ever
executed (cancellation before the first attempt — the only way the loop
leaves `best_result` unset), it returns an empty result tagged with
attempt_label `"A"` and the original avatar name as `resolved_query`. -/
theorem fallback_empty_attempts_and_cancelled_behavior :
    (∀ (provider : SearchParams → SearchResult) (aliasMap : Str → Option Str)
       (iv : Str → Bool) (cancel : Option (Nat → Bool))
       (params : SearchParams) (minR maxA : Int),
       params.page = 1 → params.normalization_enabled = true →
       buildAttempts aliasMap
         (if params.raw_query = [] then params.avatar_name
          else params.raw_query) params.normalization_enabled
         params.allow_multi maxA = [] →
       searchWithFallback provider aliasMap iv cancel params minR maxA =
         (provider params, [params.avatar_name])) ∧
    (∀ (provider : SearchParams → SearchResult) (aliasMap : Str → Option Str)
       (iv : Str → Bool) (c : Nat → Bool) (params : SearchParams)
       (minR maxA : Int),
       params.page = 1 → params.normalization_enabled = true → c 0 = true →
       buildAttempts aliasMap
         (if params.raw_query = [] then params.avatar_name
          else params.raw_query) params.normalization_enabled
         params.allow_multi maxA ≠ [] →
       (searchWithFallback provider aliasMap iv (some c) params minR
          maxA).1.items = [] ∧
       (searchWithFallback provider aliasMap iv (some c) params minR
          maxA).1.attempt_label = "A".toList ∧
       (searchWithFallback provider aliasMap iv (some c) params minR
          maxA).1.resolved_query = params.avatar_name ∧
       (searchWithFallback provider aliasMap iv (some c) params minR
          maxA).2 = []) := by
  have hguard : ∀ (params : SearchParams), params.page = 1 →
      params.normalization_enabled = true →
      ¬(params.page ≠ 1 ∨ params.normalization_enabled = false) := by
    intro params h1 h2
    simp [h1, h2]
  constructor
  · intro provider aliasMap iv cancel params minR maxA h1 h2 h3
    unfold searchWithFallback
    rw [if_neg (hguard params h1 h2)]
    simp only [h3, if_pos]
  · intro provider aliasMap iv c params minR maxA h1 h2 hc h3
    unfold searchWithFallback
    rw [if_neg (hguard params h1 h2)]
    simp only
    obtain ⟨a, rest, ha⟩ :
        ∃ a rest, buildAttempts aliasMap
          (if params.raw_query = [] then params.avatar_name
           else params.raw_query) params.normalization_enabled
          params.allow_multi maxA = a :: rest := by
      cases hl : buildAttempts aliasMap
          (if params.raw_query = [] then params.avatar_name
           else params.raw_query) params.normalization_enabled
          params.allow_multi maxA with
      | nil => exact absurd hl h3
      | cons a rest => exact ⟨a, rest, rfl⟩
    rw [ha]
    rw [if_neg (by simp)]
    rw [runAttempts_cancelled provider c params _ minR a rest 0 none hc]
    simp only
    by_cases hv : params.verify_mode ∧ params.verify_top_n > 0
    · rw [if_pos hv, verifyTopItems_of_empty _ _ _ _ _ rfl]
      refine ⟨?_, ?_, ?_, ?_⟩ <;> first | rfl | trivial
    · rw [if_neg hv]
      refine ⟨?_, ?_, ?_, ?_⟩ <;> first | rfl | trivial

/-- Witness for C6 (amended): both clauses applied to concrete inputs — the
empty-plan clause at `max_attempts = 0`, the cancelled-before-first-attempt
clause with an always-true `cancel_check`. -/
theorem fallback_empty_attempts_and_cancelled_behavior_witness :
    (paramsDirect.page = 1 ∧ paramsDirect.normalization_enabled = true ∧
      buildAttempts aliasNone
        (if paramsDirect.raw_query = [] then paramsDirect.avatar_name
         else paramsDirect.raw_query) paramsDirect.normalization_enabled
        paramsDirect.allow_multi 0 = [] ∧
      searchWithFallback (stubProvider respDirect) aliasNone verifyNever none
        paramsDirect 3 0 =
        (stubProvider respDirect paramsDirect, [paramsDirect.avatar_name])) ∧
    ((fun _ : Nat => true) 0 = true ∧
      (searchWithFallback (stubProvider respDirect) aliasNone verifyNever
        (some fun _ => true) paramsDirect 3 3).1.resolved_query =
        paramsDirect.avatar_name) :=
  ⟨⟨by decide, by decide, by decide,
    fallback_empty_attempts_and_cancelled_behavior.1 (stubProvider respDirect)
      aliasNone verifyNever none paramsDirect 3 0 (by decide) (by decide)
      (by decide)⟩,
   ⟨rfl,
    (fallback_empty_attempts_and_cancelled_behavior.2 (stubProvider respDirect)
      aliasNone verifyNever (fun _ => true) paramsDirect 3 3 (by decide)
      (by decide) rfl (by decide)).2.2.1⟩⟩

end Booth
